import Mathlib

/-!
Verification of the gamepad input / virtual cursor subsystem of the
game-wiki-overlay repository.

Each definition below is a shallow embedding of a function from the
JavaScript source.  JavaScript numbers are modelled as rationals (`ℚ`)
where only finite values occur; where `undefined`/`NaN` can flow through
an arithmetic expression (the right-stick scroll path) a dedicated
`JSNum` type with `nan`/`undef` constructors is used.  XInput button
masks are natural numbers combined with bitwise and.
-/

namespace GameWikiOverlay

/-! ## Configuration constants (src/main/gamepad-module/gamepad-config.js) -/

def BTN_DPAD_UP : ℕ := 0x0001
def BTN_DPAD_DOWN : ℕ := 0x0002
def BTN_DPAD_LEFT : ℕ := 0x0004
def BTN_DPAD_RIGHT : ℕ := 0x0008
def BTN_START : ℕ := 0x0010
def BTN_BACK : ℕ := 0x0020
def BTN_LEFT_SHOULDER : ℕ := 0x0100
def BTN_RIGHT_SHOULDER : ℕ := 0x0200
def BTN_A : ℕ := 0x1000
def BTN_B : ℕ := 0x2000
def BTN_X : ℕ := 0x4000
def BTN_Y : ℕ := 0x8000

def DEADZONE : ℤ := 8000
def STICK_MAX : ℤ := 32767

/-- Renderer-side cursor constants (src/renderer/modules/cursor-config.js). -/
def CFG_CURSOR_SPEED : ℚ := 8
def CFG_SCROLL_SPEED : ℚ := 1
def CFG_SNAP_RADIUS : ℚ := 100
def CFG_SNAP_STRENGTH : ℚ := 3 / 10

/-! ## GamepadInput (src/main/gamepadModule/gamepadInput.js) -/

/-- `GamepadInput.applyDeadzone`: a raw int16 stick value inside the deadzone
becomes 0; outside it is shifted toward zero by the deadzone. -/
def applyDeadzone (value : ℤ) : ℤ :=
  if |value| < DEADZONE then 0
  else if 0 < value then value - DEADZONE else value + DEADZONE

/-- The raw `XINPUT_GAMEPAD` sample read from the platform API. -/
structure RawGamepad where
  wButtons : ℕ
  bLeftTrigger : ℕ
  bRightTrigger : ℕ
  sThumbLX : ℤ
  sThumbLY : ℤ
  sThumbRX : ℤ
  sThumbRY : ℤ
deriving DecidableEq

/-- The state object returned by `GamepadInput.poll`. -/
structure InputFrame where
  buttons : ℕ
  previousButtons : ℕ
  leftTrigger : ℕ
  rightTrigger : ℕ
  leftStickX : ℤ
  leftStickY : ℤ
  rightStickX : ℤ
  rightStickY : ℤ
deriving DecidableEq

/-- Mutable state of a `GamepadInput` instance (`this.lastButtons`). -/
structure GamepadInputState where
  lastButtons : ℕ
deriving DecidableEq

/-- `GamepadInput.poll`: `none` models "controller not available"
(`XInputGetState` returned nonzero), in which case `lastButtons` is left
untouched; on success `previousButtons` is the stored mask and
`lastButtons` is overwritten with the fresh mask. -/
def poll (s : GamepadInputState) (sample : Option RawGamepad) :
    Option InputFrame × GamepadInputState :=
  match sample with
  | none => (none, s)
  | some g =>
    (some { buttons := g.wButtons
            previousButtons := s.lastButtons
            leftTrigger := g.bLeftTrigger
            rightTrigger := g.bRightTrigger
            leftStickX := applyDeadzone g.sThumbLX
            leftStickY := applyDeadzone g.sThumbLY
            rightStickX := applyDeadzone g.sThumbRX
            rightStickY := applyDeadzone g.sThumbRY },
     { lastButtons := g.wButtons })

/-- Run `poll` over a sequence of raw samples, collecting the frames of the
successful polls in order. -/
def pollFrames (s : GamepadInputState) : List (Option RawGamepad) → List InputFrame
  | [] => []
  | sample :: rest =>
    match poll s sample with
    | (none, s1) => pollFrames s1 rest
    | (some f, s1) => f :: pollFrames s1 rest

/-- `GamepadActionDispatcher.isPressed` (src/unnamed/part_001). -/
def isPressed (buttons button : ℕ) : Bool :=
  (buttons &&& button) != 0

/-- `GamepadActionDispatcher.isJustPressed`. -/
def isJustPressed (currentButtons previousButtons button : ℕ) : Bool :=
  isPressed currentButtons button && !(isPressed previousButtons button)

/-- `GamepadActionDispatcher.isCombo`. -/
def isCombo (buttons button1 button2 : ℕ) : Bool :=
  isPressed buttons button1 && isPressed buttons button2

/-- `GamepadActionDispatcher.isComboJustPressed`. -/
def isComboJustPressed (currentButtons previousButtons button1 button2 : ℕ) : Bool :=
  isCombo currentButtons button1 button2 && !(isCombo previousButtons button1 button2)

/-- `GamepadInput.isButtonJustPressed` (src/main/gamepadModule/gamepadInput.js,
compares against the instance field `this.lastButtons`). -/
def inputIsButtonJustPressed (s : GamepadInputState) (currentButtons button : ℕ) : Bool :=
  isPressed currentButtons button && !(isPressed s.lastButtons button)

/-! ## GamepadActionDispatcher.dispatchButtonPress (src/unnamed/part_001) -/

/-- The named actions the dispatcher can route to its two handlers. -/
inductive GamepadAction
  | closeApp
  | toggleVisibility
  | click
  | back
  | home
  | openKeyboard
  | pageUp
  | pageDown
  | submitSearch
deriving DecidableEq

/-- Emit an action when its edge condition holds (one `if` in the source). -/
def emitIf (c : Bool) (a : GamepadAction) : List GamepadAction :=
  if c then [a] else []

/-- `GamepadActionDispatcher.dispatchButtonPress`, as the list of handler
invocations it performs for one frame.  The two combo checks run before the
background-mode and visibility gates and each returns early. -/
def dispatchButtonPress (buttons previousButtons : ℕ)
    (backgroundMode windowVisible : Bool) : List GamepadAction :=
  if isComboJustPressed buttons previousButtons BTN_BACK BTN_B then
    [GamepadAction.closeApp]
  else if isComboJustPressed buttons previousButtons BTN_BACK BTN_START then
    [GamepadAction.toggleVisibility]
  else if backgroundMode then []
  else if !windowVisible then []
  else
    emitIf (isJustPressed buttons previousButtons BTN_A) GamepadAction.click ++
    emitIf (isJustPressed buttons previousButtons BTN_B) GamepadAction.back ++
    emitIf (isJustPressed buttons previousButtons BTN_Y) GamepadAction.home ++
    emitIf (isJustPressed buttons previousButtons BTN_X) GamepadAction.openKeyboard ++
    emitIf (isJustPressed buttons previousButtons BTN_LEFT_SHOULDER) GamepadAction.pageUp ++
    emitIf (isJustPressed buttons previousButtons BTN_RIGHT_SHOULDER) GamepadAction.pageDown ++
    emitIf (isJustPressed buttons previousButtons BTN_START) GamepadAction.submitSearch

/-! ## JavaScript numbers for the right-stick scroll path

`scrollWithGamepad` is declared with two parameters but its only caller
(`onGamepadScroll` in src/unnamed/part_002) passes a single argument, so the
second parameter is `undefined` and arithmetic on it produces `NaN`.  `JSNum`
captures exactly the values that can occur on this path. -/

inductive JSNum
  | num (q : ℚ)
  | nan
  | undef
deriving DecidableEq

/-- JavaScript multiplication restricted to this path: any operand that is
not a finite number yields `NaN`. -/
def jsMul : JSNum → JSNum → JSNum
  | JSNum.num a, JSNum.num b => JSNum.num (a * b)
  | _, _ => JSNum.nan

/-- `Math.round`: round half toward positive infinity; `Math.round(NaN)` and
`Math.round(undefined)` are `NaN`. -/
def jsRound : JSNum → JSNum
  | JSNum.num q => JSNum.num ((⌊q + 1 / 2⌋ : ℤ) : ℚ)
  | _ => JSNum.nan

/-- The JavaScript test `v !== 0`; note `NaN !== 0` is `true`. -/
def jsNeZero : JSNum → Bool
  | JSNum.num q => q != 0
  | _ => true

/-- `GamepadCursor.scrollWithGamepad` (src/unnamed/part_003): returns the
`(x, y)` delta passed to `webviewBridge.scroll`, or `none` when no scroll
command is sent. -/
def scrollWithGamepad (webviewActive : Bool) (scrollX scrollY : JSNum) :
    Option (JSNum × JSNum) :=
  if webviewActive then
    let scrollAmountX := jsRound (jsMul (jsMul scrollX (JSNum.num CFG_SCROLL_SPEED)) (JSNum.num 5))
    let scrollAmountY := jsRound (jsMul (jsMul scrollY (JSNum.num CFG_SCROLL_SPEED)) (JSNum.num 5))
    if jsNeZero scrollAmountX || jsNeZero scrollAmountY then
      some (scrollAmountX, scrollAmountY)
    else none
  else none

/-- The `onGamepadScroll` handler (src/unnamed/part_002): forwards
`data.scrollY` as the *first* and only argument of `scrollWithGamepad`,
leaving the second parameter `undefined`. -/
def onGamepadScroll (wikiActive oskVisible webviewActive : Bool) (scrollY : ℚ) :
    Option (JSNum × JSNum) :=
  if wikiActive && !oskVisible then
    scrollWithGamepad webviewActive (JSNum.num scrollY) JSNum.undef
  else none

/-- The right-stick scroll callback inside `pollGamepad`
(src/main/gamepad-module/gamepad.js): scales the deadzone-filtered stick value
and sends a `gamepad-scroll` message only when `|scrollY| > 0.5`. -/
def gamepadScrollMessage (rightStickY : ℤ) : Option ℚ :=
  let maxPostDeadzone : ℚ := (STICK_MAX : ℚ) - (DEADZONE : ℚ)
  let scrollY : ℚ := ((rightStickY : ℚ) / maxPostDeadzone) * 15
  if 1 / 2 < |scrollY| then some scrollY else none

/-! ## ElementDetector (src/renderer/modules/webview-bridge.js)

Distances are computed by `Math.hypot`, whose exact value is irrational, so
the embedding abstracts it as a function parameter `hyp : ℚ → ℚ → ℚ`; every
theorem below holds for an arbitrary `hyp`, hence in particular for the
Euclidean one the code uses. -/

/-- One entry of `this.allClickableElements`. -/
structure ClickableElement where
  centerX : ℚ
  centerY : ℚ
  left : ℚ
  right : ℚ
  top : ℚ
  bottom : ℚ
  isWebviewElement : Bool
  webviewIndex : Option ℕ
deriving DecidableEq

/-- The bounds check `x >= el.left && x <= el.right && y >= el.top && y <= el.bottom`. -/
def containsPt (el : ClickableElement) (x y : ℚ) : Prop :=
  el.left ≤ x ∧ x ≤ el.right ∧ el.top ≤ y ∧ y ≤ el.bottom

instance (el : ClickableElement) (x y : ℚ) : Decidable (containsPt el x y) := by
  unfold containsPt; infer_instance

/-- `dist = Math.hypot(x - el.centerX, y - el.centerY)` with `hyp` standing
for `Math.hypot`. -/
def centerDist (hyp : ℚ → ℚ → ℚ) (x y : ℚ) (el : ClickableElement) : ℚ :=
  hyp (x - el.centerX) (y - el.centerY)

/-- The `for` loop of `ElementDetector.findNearest`, with the running
candidate and its distance as accumulators. -/
def findNearestLoop (hyp : ℚ → ℚ → ℚ) (x y : ℚ) :
    List ClickableElement → Option ClickableElement → ℚ → Option ClickableElement
  | [], nearest, _ => nearest
  | el :: rest, nearest, nearestDist =>
    if containsPt el x y then some el
    else if centerDist hyp x y el < nearestDist then
      findNearestLoop hyp x y rest (some el) (centerDist hyp x y el)
    else
      findNearestLoop hyp x y rest nearest nearestDist

/-- `ElementDetector.findNearest`. -/
def findNearest (hyp : ℚ → ℚ → ℚ) (elems : List ClickableElement)
    (x y snapRadius : ℚ) : Option ClickableElement :=
  if elems.length = 0 then none
  else findNearestLoop hyp x y elems none snapRadius

/-- A DOM bounding rectangle (`getBoundingClientRect` result). -/
structure DomRect where
  left : ℚ
  right : ℚ
  top : ℚ
  bottom : ℚ
deriving DecidableEq

/-- The object literal pushed by `getLocalClickableElements` for a host
element with bounding rectangle `r` (`width = right - left`). -/
def localElem (r : DomRect) : ClickableElement :=
  { centerX := r.left + (r.right - r.left) / 2
    centerY := r.top + (r.bottom - r.top) / 2
    left := r.left
    right := r.right
    top := r.top
    bottom := r.bottom
    isWebviewElement := false
    webviewIndex := none }

/-- One entry of the array returned by the script injected into the webview
(`results.push({left, top, right, bottom, width, height, index})`, where
`width = right - left` and `height = bottom - top` for a DOM rect). -/
structure WebviewRawResult where
  left : ℚ
  top : ℚ
  right : ℚ
  bottom : ℚ
  index : ℕ
deriving DecidableEq

/-- The element built from a webview query result in `refresh`'s `.then`
callback, translated by the webview's own bounding rectangle. -/
def webviewElem (webviewRect : DomRect) (r : WebviewRawResult) : ClickableElement :=
  { centerX := webviewRect.left + r.left + (r.right - r.left) / 2
    centerY := webviewRect.top + r.top + (r.bottom - r.top) / 2
    left := webviewRect.left + r.left
    right := webviewRect.left + r.right
    top := webviewRect.top + r.top
    bottom := webviewRect.top + r.bottom
    isWebviewElement := true
    webviewIndex := some r.index }

/-- `ElementDetector.refresh`.  `prev` is `this.allClickableElements` when the
refresh starts, `localRects` the rectangles of the synchronous host scan,
`query` the outcome of the asynchronous `executeJavaScript` promise
(`Except.error` models rejection).  The result is the new
`allClickableElements` paired with whether `onComplete` ran; the outer
`Except.ok` records that no error escapes to the caller (the `.catch`
swallows the rejection). -/
def refresh (prev : List ClickableElement) (localRects : List DomRect)
    (wikiActive : Bool) (webviewRect : DomRect)
    (query : Except Unit (List WebviewRawResult)) :
    Except Unit (List ClickableElement × Bool) :=
  let localElements := localRects.map localElem
  if wikiActive then
    let existingWebviewElements := prev.filter (fun el => el.isWebviewElement)
    match query with
    | Except.ok results =>
      Except.ok (localElements ++ results.map (webviewElem webviewRect), true)
    | Except.error _ =>
      Except.ok (localElements ++ existingWebviewElements, true)
  else
    Except.ok (localElements, true)

/-! ## GamepadCursor.move (src/unnamed/part_003) -/

/-- `Math.max(lo, Math.min(hi, v))`. -/
def clampQ (lo hi v : ℚ) : ℚ := max lo (min hi v)

/-- The first two stages of `GamepadCursor.move`: the raw delta followed by
the magnetic attraction toward the nearest element (applied when strictly
inside the snap radius and at positive distance). -/
def movePreClamp (hyp : ℚ → ℚ → ℚ) (elems : List ClickableElement)
    (x y dx dy : ℚ) : ℚ × ℚ :=
  let x1 := x + dx
  let y1 := y + dy
  match findNearest hyp elems x1 y1 CFG_SNAP_RADIUS with
  | none => (x1, y1)
  | some nearest =>
    let distToNearest := hyp (x1 - nearest.centerX) (y1 - nearest.centerY)
    if distToNearest < CFG_SNAP_RADIUS ∧ 0 < distToNearest then
      let dirX := (nearest.centerX - x1) / distToNearest
      let dirY := (nearest.centerY - y1) / distToNearest
      let attractionForce := CFG_SNAP_STRENGTH * (1 - distToNearest / CFG_SNAP_RADIUS)
      (x1 + dirX * CFG_CURSOR_SPEED * attractionForce,
       y1 + dirY * CFG_CURSOR_SPEED * attractionForce)
    else (x1, y1)

/-- `GamepadCursor.move`: raw delta, then magnetic attraction, then clamping
to `[10, innerWidth - 10] × [10, innerHeight - 10]`.  Returns the new
`(this.x, this.y)`. -/
def moveCursor (hyp : ℚ → ℚ → ℚ) (elems : List ClickableElement)
    (innerWidth innerHeight x y dx dy : ℚ) : ℚ × ℚ :=
  let p := movePreClamp hyp elems x y dx dy
  (clampQ 10 (innerWidth - 10) p.1, clampQ 10 (innerHeight - 10) p.2)

/-! ## ButtonRepeatHandler (src/main/gamepad-module/gamepad-config.js)

The handler stores timer handles in `this.repeatTimers` under the keys
`button` and `button + '_interval'`; modelled as two partial maps.  A timer
world tracks the set of live platform timers (pending timeouts and running
intervals), each tagged with the button whose `startRepeat` call created it.
A fired one-shot timeout leaves the live set but its handle stays in the
dictionary (the source never deletes it on firing), which is exactly the
staleness the embedding reproduces. -/

structure RepeatTimer where
  id : ℕ
  button : ℕ
  isInterval : Bool
deriving DecidableEq

structure TimerWorld where
  nextId : ℕ
  live : List RepeatTimer
  delayKey : ℕ → Option ℕ
  intervalKey : ℕ → Option ℕ

def updateKey (f : ℕ → Option ℕ) (b : ℕ) (v : Option ℕ) : ℕ → Option ℕ :=
  fun b2 => if b2 = b then v else f b2

/-- `clearTimeout`/`clearInterval` on a stored handle: removes the timer with
that id from the live set (a no-op for an already-fired or absent handle). -/
def clearById (tid : Option ℕ) (live : List RepeatTimer) : List RepeatTimer :=
  match tid with
  | none => live
  | some i => live.filter (fun t => t.id != i)

/-- `ButtonRepeatHandler.clearRepeat`. -/
def clearRepeatW (b : ℕ) (w : TimerWorld) : TimerWorld :=
  { w with
    live := clearById (w.intervalKey b) (clearById (w.delayKey b) w.live)
    delayKey := updateKey w.delayKey b none
    intervalKey := updateKey w.intervalKey b none }

/-- The tail of `startRepeat` after the teardown guard: create the one-shot
delay timer and store its handle under the button's key. -/
def startRepeatPost (b : ℕ) (w1 : TimerWorld) : TimerWorld :=
  { nextId := w1.nextId + 1
    live := RepeatTimer.mk w1.nextId b false :: w1.live
    delayKey := updateKey w1.delayKey b (some w1.nextId)
    intervalKey := w1.intervalKey }

/-- `ButtonRepeatHandler.startRepeat`: tears down any handles stored for the
button (`if (this.repeatTimers[button]) this.clearRepeat(button)`), then
creates the initial one-shot delay timer. -/
def startRepeatW (b : ℕ) (w : TimerWorld) : TimerWorld :=
  startRepeatPost b (if (w.delayKey b).isSome then clearRepeatW b w else w)

/-- The delay timeout for button `b` fires: the one-shot timer leaves the
live set, the callback starts the recurring interval and stores its handle
under `button + '_interval'` (the stale delay handle is left in place). -/
def delayElapsedW (b : ℕ) (w : TimerWorld) : TimerWorld :=
  match w.delayKey b with
  | none => w
  | some i =>
    { nextId := w.nextId + 1
      live := RepeatTimer.mk w.nextId b true :: w.live.filter (fun t => t.id != i)
      delayKey := w.delayKey
      intervalKey := updateKey w.intervalKey b (some w.nextId) }

/-- `ButtonRepeatHandler.clearAll`: cancels every stored handle and empties
the dictionary. -/
def clearAllW (w : TimerWorld) : TimerWorld :=
  { nextId := w.nextId
    live := w.live.filter
      (fun t => !(w.delayKey t.button == some t.id || w.intervalKey t.button == some t.id))
    delayKey := fun _ => none
    intervalKey := fun _ => none }

/-- A fresh `ButtonRepeatHandler` (`this.repeatTimers = {}`). -/
def initWorld : TimerWorld :=
  { nextId := 0, live := [], delayKey := fun _ => none, intervalKey := fun _ => none }

/-- The states reachable through the handler's interface plus the timer
runtime.  `elapse` requires the stored delay handle to be a still-pending
timeout, which is the platform's firing precondition. -/
inductive ReachW : TimerWorld → Prop
  | init : ReachW initWorld
  | start (b : ℕ) {w : TimerWorld} : ReachW w → ReachW (startRepeatW b w)
  | clear (b : ℕ) {w : TimerWorld} : ReachW w → ReachW (clearRepeatW b w)
  | elapse (b i : ℕ) {w : TimerWorld} : ReachW w → w.delayKey b = some i →
      RepeatTimer.mk i b false ∈ w.live → ReachW (delayElapsedW b w)
  | wipe {w : TimerWorld} : ReachW w → ReachW (clearAllW w)

/-- Number of live (pending) delay timeouts created for button `b`. -/
def delayCount (w : TimerWorld) (b : ℕ) : ℕ :=
  (w.live.filter (fun t => t.button == b && t.isInterval == false)).length

/-- Number of live (running) repeat intervals created for button `b`. -/
def intervalCount (w : TimerWorld) (b : ℕ) : ℕ :=
  (w.live.filter (fun t => t.button == b && t.isInterval == true)).length

/-! ## OSKManager (src/renderer/modules/osk-manager.js) -/

def OSK_COLS : ℕ := 10

/-- `LAYOUTS.letters` (the key after `'L'` is the apostrophe). -/
def lettersLayout : List Char :=
  ['Q', 'W', 'E', 'R', 'T', 'Y', 'U', 'I', 'O', 'P',
   'A', 'S', 'D', 'F', 'G', 'H', 'J', 'K', 'L', Char.ofNat 39,
   'Z', 'X', 'C', 'V', 'B', 'N', 'M', ',', '.', '-']

/-- `LAYOUTS.numbers` (the keys after `']'` are the curly braces). -/
def numbersLayout : List Char :=
  ['1', '2', '3', '4', '5', '6', '7', '8', '9', '0',
   '!', '@', '#', '$', '%', '^', '&', '*', '(', ')',
   '+', '=', '[', ']', Char.ofNat 123, Char.ofNat 125, ':', ';', '"', '?']

inductive OSKDir
  | up
  | down
  | left
  | right
deriving DecidableEq

/-- `OSKManager.navigate`: row/column arithmetic with wraparound and the
final clamp `if (newIndex >= keys.length) newIndex = keys.length - 1`. -/
def oskNavigate (keys : List Char) (selectedIndex : ℕ) (d : OSKDir) : ℕ :=
  let rows := (keys.length + OSK_COLS - 1) / OSK_COLS
  let col := selectedIndex % OSK_COLS
  let row := selectedIndex / OSK_COLS
  let col2 :=
    match d with
    | OSKDir.left => (col + OSK_COLS - 1) % OSK_COLS
    | OSKDir.right => (col + 1) % OSK_COLS
    | _ => col
  let row2 :=
    match d with
    | OSKDir.up => (row + rows - 1) % rows
    | OSKDir.down => (row + 1) % rows
    | _ => row
  let newIndex := row2 * OSK_COLS + col2
  if keys.length ≤ newIndex then keys.length - 1 else newIndex

/-- Modelled from the spec: "`navigate(direction)` moves the selection by one
row/column with wraparound on both axes" — the wrapped target index before
the short-last-row clamp. -/
def specWrapTarget (keys : List Char) (selectedIndex : ℕ) (d : OSKDir) : ℕ :=
  let rows := (keys.length + OSK_COLS - 1) / OSK_COLS
  let col := selectedIndex % OSK_COLS
  let row := selectedIndex / OSK_COLS
  match d with
  | OSKDir.left => row * OSK_COLS + (col + OSK_COLS - 1) % OSK_COLS
  | OSKDir.right => row * OSK_COLS + (col + 1) % OSK_COLS
  | OSKDir.up => ((row + rows - 1) % rows) * OSK_COLS + col
  | OSKDir.down => ((row + 1) % rows) * OSK_COLS + col

/-! ## Theorems -/

/-- C1 (code-bug evidence): with the webview active, the `onGamepadScroll`
handler invoked with a scroll delta of `1/20` — far below any perceptible
threshold, so small it rounds to a zero x-amount — still sends a scroll
command to the webview, because the unsupplied second argument of
`scrollWithGamepad` makes `scrollAmountY` equal to `NaN` and `NaN !== 0`
evaluates to `true`. -/
theorem scrollWithGamepad_subthreshold_sends_command :
    onGamepadScroll true false true (1 / 20) = some (JSNum.num 0, JSNum.nan) := by
  simp [onGamepadScroll, scrollWithGamepad, jsMul, jsRound, jsNeZero, CFG_SCROLL_SPEED]
  norm_num

/-- C7: the deadzone filter returns exactly 0 strictly inside the threshold,
shifts values at or beyond the threshold toward zero by the threshold
(signed), and is continuous (1-Lipschitz on consecutive integers) across the
threshold boundary. -/
theorem applyDeadzone_spec (v : ℤ) :
    (|v| < DEADZONE → applyDeadzone v = 0) ∧
    (DEADZONE ≤ v → applyDeadzone v = v - DEADZONE) ∧
    (v ≤ -DEADZONE → applyDeadzone v = v + DEADZONE) ∧
    |applyDeadzone (v + 1) - applyDeadzone v| ≤ 1 := by
  simp only [applyDeadzone, DEADZONE, abs_lt, abs_le]
  refine ⟨fun h => ?_, fun h => ?_, fun h => ?_, ?_⟩ <;> split_ifs <;> omega

theorem applyDeadzone_spec_witness :
    (|(4000 : ℤ)| < DEADZONE ∧ applyDeadzone 4000 = 0) ∧
    (DEADZONE ≤ (9000 : ℤ) ∧ applyDeadzone 9000 = 1000) ∧
    ((-9000 : ℤ) ≤ -DEADZONE ∧ applyDeadzone (-9000) = -1000) :=
  ⟨⟨by decide, (applyDeadzone_spec 4000).1 (by decide)⟩,
   ⟨by decide, (applyDeadzone_spec 9000).2.1 (by decide)⟩,
   ⟨by decide, (applyDeadzone_spec (-9000)).2.2.1 (by decide)⟩⟩

/-- C8: when the asynchronous webview query rejects, `refresh` produces
exactly the fresh host scan together with the webview elements tracked when
the refresh began, still invokes `onComplete`, and propagates no error. -/
theorem refresh_failure_retains_embedded (prev : List ClickableElement)
    (localRects : List DomRect) (webviewRect : DomRect) :
    refresh prev localRects true webviewRect (Except.error ()) =
      Except.ok
        (localRects.map localElem ++ prev.filter (fun el => el.isWebviewElement), true) ∧
    ∀ el : ClickableElement,
      el ∈ localRects.map localElem ++ prev.filter (fun el2 => el2.isWebviewElement) ↔
        (el ∈ localRects.map localElem ∨ (el ∈ prev ∧ el.isWebviewElement = true)) := by
  refine ⟨rfl, fun el => ?_⟩
  simp [List.mem_append, List.mem_filter]

lemma clampQ_bounds (lo hi v : ℚ) (h : lo ≤ hi) :
    lo ≤ clampQ lo hi v ∧ clampQ lo hi v ≤ hi :=
  ⟨le_max_left _ _, max_le h (min_le_left _ _)⟩

/-- C4: whatever the deltas, the element set and the snap attraction (the
distance function is arbitrary here), the cursor position after `move` lies
within `[10, innerWidth - 10] × [10, innerHeight - 10]` (for a viewport at
least 20 pixels wide and tall, so that the clamp interval is nonempty). -/
theorem moveCursor_stays_in_bounds (hyp : ℚ → ℚ → ℚ)
    (elems : List ClickableElement) (innerWidth innerHeight x y dx dy : ℚ)
    (hW : 20 ≤ innerWidth) (hH : 20 ≤ innerHeight) :
    10 ≤ (moveCursor hyp elems innerWidth innerHeight x y dx dy).1 ∧
    (moveCursor hyp elems innerWidth innerHeight x y dx dy).1 ≤ innerWidth - 10 ∧
    10 ≤ (moveCursor hyp elems innerWidth innerHeight x y dx dy).2 ∧
    (moveCursor hyp elems innerWidth innerHeight x y dx dy).2 ≤ innerHeight - 10 := by
  have hx := clampQ_bounds 10 (innerWidth - 10)
    (movePreClamp hyp elems x y dx dy).1 (by linarith)
  have hy := clampQ_bounds 10 (innerHeight - 10)
    (movePreClamp hyp elems x y dx dy).2 (by linarith)
  exact ⟨hx.1, hx.2, hy.1, hy.2⟩

theorem moveCursor_stays_in_bounds_witness :
    (20 : ℚ) ≤ 900 ∧
    10 ≤ (moveCursor (fun _ _ => 0) [] 900 600 450 300 100000 (-100000)).1 :=
  ⟨by decide,
   (moveCursor_stays_in_bounds (fun _ _ => 0) [] 900 600 450 300 100000 (-100000)
      (by decide) (by decide)).1⟩

lemma pollFrames_head_prev :
    ∀ (samples : List (Option RawGamepad)) (s : GamepadInputState) (f : InputFrame),
      (pollFrames s samples).head? = some f → f.previousButtons = s.lastButtons := by
  intro samples
  induction samples with
  | nil => intro s f h; simp [pollFrames] at h
  | cons sample rest ih =>
    intro s f h
    cases sample with
    | none => exact ih s f h
    | some g =>
      simp only [pollFrames, poll, List.head?] at h
      cases h
      rfl

lemma pollFrames_chain (s : GamepadInputState) (samples : List (Option RawGamepad)) :
    List.Chain' (fun f g => g.previousButtons = f.buttons) (pollFrames s samples) := by
  induction samples generalizing s with
  | nil => simp [pollFrames]
  | cons sample rest ih =>
    cases sample with
    | none => exact ih s
    | some g =>
      refine List.chain'_cons'.mpr ⟨?_, ih ⟨g.wButtons⟩⟩
      intro f hf
      exact pollFrames_head_prev rest ⟨g.wButtons⟩ f (by simpa using hf)

/-- C2: over any sequence of polls, each successful frame's `previousButtons`
is exactly the button mask of the immediately preceding successful poll, and
the dispatcher's just-pressed test on a frame reports a button precisely when
its bit is set now and was clear in that preceding frame — so a 0→1
transition is reported exactly once, on the transition frame, and never again
while the bit stays 1. -/
theorem poll_edge_exactly_once (s : GamepadInputState)
    (samples : List (Option RawGamepad)) (i : ℕ)
    (h : i + 1 < (pollFrames s samples).length) (b : ℕ) :
    ((pollFrames s samples).get ⟨i + 1, h⟩).previousButtons =
      ((pollFrames s samples).get ⟨i, Nat.lt_of_succ_lt h⟩).buttons ∧
    isJustPressed ((pollFrames s samples).get ⟨i + 1, h⟩).buttons
        ((pollFrames s samples).get ⟨i + 1, h⟩).previousButtons b =
      (isPressed ((pollFrames s samples).get ⟨i + 1, h⟩).buttons b &&
        !(isPressed ((pollFrames s samples).get ⟨i, Nat.lt_of_succ_lt h⟩).buttons b)) := by
  have hc := List.chain'_iff_get.mp (pollFrames_chain s samples) i (by omega)
  refine ⟨hc, ?_⟩
  simp only [isJustPressed]
  rw [hc]

theorem poll_edge_exactly_once_witness :
    isJustPressed
        ((pollFrames ⟨0⟩ [some ⟨4096, 0, 0, 0, 0, 0, 0⟩,
            some ⟨4096, 0, 0, 0, 0, 0, 0⟩]).get ⟨1, by decide⟩).buttons
        ((pollFrames ⟨0⟩ [some ⟨4096, 0, 0, 0, 0, 0, 0⟩,
            some ⟨4096, 0, 0, 0, 0, 0, 0⟩]).get ⟨1, by decide⟩).previousButtons 4096 =
      (isPressed ((pollFrames ⟨0⟩ [some ⟨4096, 0, 0, 0, 0, 0, 0⟩,
            some ⟨4096, 0, 0, 0, 0, 0, 0⟩]).get ⟨1, by decide⟩).buttons 4096 &&
        !(isPressed ((pollFrames ⟨0⟩ [some ⟨4096, 0, 0, 0, 0, 0, 0⟩,
            some ⟨4096, 0, 0, 0, 0, 0, 0⟩]).get ⟨0, by decide⟩).buttons 4096)) :=
  (poll_edge_exactly_once ⟨0⟩
    [some ⟨4096, 0, 0, 0, 0, 0, 0⟩, some ⟨4096, 0, 0, 0, 0, 0, 0⟩] 0 (by decide) 4096).2

lemma mem_emitIf {x a : GamepadAction} {c : Bool} :
    x ∈ emitIf c a ↔ (c = true ∧ x = a) := by
  unfold emitIf
  split_ifs with h <;> simp [h]

lemma closeApp_mem_dispatch (buttons previousButtons : ℕ) (bg vis : Bool) :
    GamepadAction.closeApp ∈ dispatchButtonPress buttons previousButtons bg vis ↔
      isComboJustPressed buttons previousButtons BTN_BACK BTN_B = true := by
  unfold dispatchButtonPress
  split_ifs with h1 h2 h3 h4 <;>
    simp [h1, mem_emitIf, List.mem_append]

lemma toggle_mem_dispatch (buttons previousButtons : ℕ) (bg vis : Bool) :
    GamepadAction.toggleVisibility ∈ dispatchButtonPress buttons previousButtons bg vis ↔
      (isComboJustPressed buttons previousButtons BTN_BACK BTN_B = false ∧
        isComboJustPressed buttons previousButtons BTN_BACK BTN_START = true) := by
  unfold dispatchButtonPress
  split_ifs with h1 h2 h3 h4 <;>
    simp [h1, mem_emitIf, List.mem_append] <;>
    simp_all

/-- C3 (amended): over any polled frame sequence, if the Back+B quit combo
becomes held at frame `k` and stays held, `dispatchButtonPress` invokes the
quit action exactly at the transition frame and never afterwards, whatever
the capture mode and visibility of each frame; the Back+Start toggle obeys
the same edge rule, *provided* the quit combo is not itself just pressed on
the toggle's transition frame (the quit check runs first and returns early,
suppressing the toggle on that frame). -/
theorem combo_edge_exactly_once (s : GamepadInputState)
    (samples : List (Option RawGamepad)) (bg vis : ℕ → Bool) (k : ℕ)
    (hk : k < (pollFrames s samples).length) :
    ((∀ i (hi : i < (pollFrames s samples).length), k ≤ i →
        isCombo ((pollFrames s samples).get ⟨i, hi⟩).buttons BTN_BACK BTN_B = true) →
      isCombo ((pollFrames s samples).get ⟨k, hk⟩).previousButtons BTN_BACK BTN_B = false →
      (GamepadAction.closeApp ∈
          dispatchButtonPress ((pollFrames s samples).get ⟨k, hk⟩).buttons
            ((pollFrames s samples).get ⟨k, hk⟩).previousButtons (bg k) (vis k) ∧
        ∀ i (hi : i < (pollFrames s samples).length), k < i →
          GamepadAction.closeApp ∉
            dispatchButtonPress ((pollFrames s samples).get ⟨i, hi⟩).buttons
              ((pollFrames s samples).get ⟨i, hi⟩).previousButtons (bg i) (vis i))) ∧
    ((∀ i (hi : i < (pollFrames s samples).length), k ≤ i →
        isCombo ((pollFrames s samples).get ⟨i, hi⟩).buttons BTN_BACK BTN_START = true) →
      isCombo ((pollFrames s samples).get ⟨k, hk⟩).previousButtons BTN_BACK BTN_START = false →
      isComboJustPressed ((pollFrames s samples).get ⟨k, hk⟩).buttons
        ((pollFrames s samples).get ⟨k, hk⟩).previousButtons BTN_BACK BTN_B = false →
      (GamepadAction.toggleVisibility ∈
          dispatchButtonPress ((pollFrames s samples).get ⟨k, hk⟩).buttons
            ((pollFrames s samples).get ⟨k, hk⟩).previousButtons (bg k) (vis k) ∧
        ∀ i (hi : i < (pollFrames s samples).length), k < i →
          GamepadAction.toggleVisibility ∉
            dispatchButtonPress ((pollFrames s samples).get ⟨i, hi⟩).buttons
              ((pollFrames s samples).get ⟨i, hi⟩).previousButtons (bg i) (vis i))) := by
  constructor
  · intro hheld hedge
    constructor
    · rw [closeApp_mem_dispatch]
      unfold isComboJustPressed
      rw [hheld k hk (le_refl k), hedge]
      rfl
    · intro i hi hki hmem
      obtain ⟨j, rfl⟩ : ∃ j, i = j + 1 := ⟨i - 1, by omega⟩
      have hprev := List.chain'_iff_get.mp (pollFrames_chain s samples) j (by omega)
      have hjp := (closeApp_mem_dispatch _ _ _ _).mp hmem
      unfold isComboJustPressed at hjp
      rw [hprev] at hjp
      rw [hheld j (by omega) (by omega)] at hjp
      simp at hjp
  · intro hheld hedge hnoquit
    constructor
    · rw [toggle_mem_dispatch]
      refine ⟨hnoquit, ?_⟩
      unfold isComboJustPressed
      rw [hheld k hk (le_refl k), hedge]
      rfl
    · intro i hi hki hmem
      obtain ⟨j, rfl⟩ : ∃ j, i = j + 1 := ⟨i - 1, by omega⟩
      have hprev := List.chain'_iff_get.mp (pollFrames_chain s samples) j (by omega)
      have hjp := ((toggle_mem_dispatch _ _ _ _).mp hmem).2
      unfold isComboJustPressed at hjp
      rw [hprev] at hjp
      rw [hheld j (by omega) (by omega)] at hjp
      simp at hjp

theorem combo_edge_exactly_once_witness :
    GamepadAction.closeApp ∈ dispatchButtonPress 0x2020 0 true false ∧
    GamepadAction.closeApp ∉ dispatchButtonPress 0x2020 0x2020 true false := by
  have h := (combo_edge_exactly_once ⟨0⟩
      [some ⟨0x2020, 0, 0, 0, 0, 0, 0⟩, some ⟨0x2020, 0, 0, 0, 0, 0, 0⟩]
      (fun _ => true) (fun _ => false) 0 (by decide)).1
      (fun i hi _ => by
        have h2 : i < 2 := hi
        interval_cases i <;>
          exact (by decide : isCombo 0x2020 BTN_BACK BTN_B = true))
      (by decide)
  exact ⟨h.1, h.2 1 (by decide) (by decide)⟩

/-- C3 counterexample: with `previousButtons = BACK` and
`buttons = BACK | START | B`, the Back+Start toggle combo is just pressed
(it becomes held on this frame), yet `dispatchButtonPress` emits only the
quit action and no visibility toggle — the toggle does not fire on its
transition frame, refuting the unconditional exactly-once rule for it. -/
theorem combo_toggle_suppressed_counterexample :
    isComboJustPressed 0x2030 0x0020 BTN_BACK BTN_START = true ∧
    dispatchButtonPress 0x2030 0x0020 false true = [GamepadAction.closeApp] ∧
    GamepadAction.toggleVisibility ∉ dispatchButtonPress 0x2030 0x0020 false true := by
  decide

lemma findNearestLoop_finds_first (hyp : ℚ → ℚ → ℚ) (x y : ℚ) :
    ∀ (l : List ClickableElement) (cand : Option ClickableElement) (d : ℚ)
      (e : ClickableElement),
      l.find? (fun el => decide (containsPt el x y)) = some e →
      findNearestLoop hyp x y l cand d = some e := by
  intro l
  induction l with
  | nil => intro cand d e h; simp at h
  | cons a t ih =>
    intro cand d e h
    by_cases hc : containsPt a x y
    · have ha : List.find? (fun el => decide (containsPt el x y)) (a :: t) = some a :=
        List.find?_cons_of_pos t (decide_eq_true hc)
      rw [ha] at h
      cases h
      simp [findNearestLoop, hc]
    · have ha : List.find? (fun el => decide (containsPt el x y)) (a :: t) =
          List.find? (fun el => decide (containsPt el x y)) t :=
        List.find?_cons_of_neg t (by simpa using hc)
      rw [ha] at h
      rw [show findNearestLoop hyp x y (a :: t) cand d =
          (if containsPt a x y then some a
           else if centerDist hyp x y a < d then
             findNearestLoop hyp x y t (some a) (centerDist hyp x y a)
           else findNearestLoop hyp x y t cand d) from rfl]
      rw [if_neg hc]
      split_ifs with hd
      · exact ih _ _ e h
      · exact ih _ _ e h

lemma findNearestLoop_min (hyp : ℚ → ℚ → ℚ) (x y : ℚ) :
    ∀ (l : List ClickableElement) (cand : Option ClickableElement) (d : ℚ),
      (∀ e ∈ l, ¬ containsPt e x y) →
      (findNearestLoop hyp x y l cand d = cand ∧
        ∀ e ∈ l, d ≤ centerDist hyp x y e) ∨
      (∃ e, findNearestLoop hyp x y l cand d = some e ∧ e ∈ l ∧
        centerDist hyp x y e < d ∧
        ∀ e2 ∈ l, centerDist hyp x y e ≤ centerDist hyp x y e2) := by
  intro l
  induction l with
  | nil => intro cand d _; left; exact ⟨rfl, by simp⟩
  | cons a t ih =>
    intro cand d h
    have ha : ¬ containsPt a x y := h a (List.mem_cons_self a t)
    have ht : ∀ e ∈ t, ¬ containsPt e x y := fun e he => h e (List.mem_cons_of_mem a he)
    rw [show findNearestLoop hyp x y (a :: t) cand d =
        (if containsPt a x y then some a
         else if centerDist hyp x y a < d then
           findNearestLoop hyp x y t (some a) (centerDist hyp x y a)
         else findNearestLoop hyp x y t cand d) from rfl]
    rw [if_neg ha]
    by_cases hd : centerDist hyp x y a < d
    · rw [if_pos hd]
      rcases ih (some a) (centerDist hyp x y a) ht with ⟨heq, hall⟩ | ⟨e, heq, hmem, hlt, hmin⟩
      · right
        refine ⟨a, heq, List.mem_cons_self a t, hd, ?_⟩
        intro e2 he2
        rcases List.mem_cons.mp he2 with rfl | he2
        · exact le_refl _
        · exact hall e2 he2
      · right
        refine ⟨e, heq, List.mem_cons_of_mem a hmem, lt_trans hlt hd, ?_⟩
        intro e2 he2
        rcases List.mem_cons.mp he2 with rfl | he2
        · exact le_of_lt hlt
        · exact hmin e2 he2
    · rw [if_neg hd]
      rcases ih cand d ht with ⟨heq, hall⟩ | ⟨e, heq, hmem, hlt, hmin⟩
      · left
        refine ⟨heq, ?_⟩
        intro e he
        rcases List.mem_cons.mp he with rfl | he
        · exact le_of_not_lt hd
        · exact hall e he
      · right
        refine ⟨e, heq, List.mem_cons_of_mem a hmem, hlt, ?_⟩
        intro e2 he2
        rcases List.mem_cons.mp he2 with rfl | he2
        · exact le_of_lt (lt_of_lt_of_le hlt (le_of_not_lt hd))
        · exact hmin e2 he2

/-- C5: `findNearest` returns a containing element whenever the query point
lies inside some tracked box (containment has priority over center
distance); with no containing box it returns an element of minimal center
distance among those strictly under the snap radius; and with neither it
returns none.  `hyp` abstracts `Math.hypot`, so this holds for the Euclidean
distance in particular. -/
theorem findNearest_spec (hyp : ℚ → ℚ → ℚ) (elems : List ClickableElement)
    (x y r : ℚ) :
    ((∃ e ∈ elems, containsPt e x y) →
      ∃ e, findNearest hyp elems x y r = some e ∧ e ∈ elems ∧ containsPt e x y) ∧
    ((∀ e ∈ elems, ¬ containsPt e x y) →
      ((∃ e ∈ elems, centerDist hyp x y e < r) →
        ∃ e, findNearest hyp elems x y r = some e ∧ e ∈ elems ∧
          centerDist hyp x y e < r ∧
          ∀ e2 ∈ elems, centerDist hyp x y e ≤ centerDist hyp x y e2) ∧
      ((∀ e ∈ elems, r ≤ centerDist hyp x y e) →
        findNearest hyp elems x y r = none)) := by
  constructor
  · rintro ⟨e0, he0, hc0⟩
    have hne : elems.length ≠ 0 := by
      cases elems with
      | nil => simp at he0
      | cons a t => simp
    have hsome : (elems.find? (fun el => decide (containsPt el x y))).isSome := by
      rw [List.find?_isSome]
      exact ⟨e0, he0, decide_eq_true hc0⟩
    obtain ⟨e, he⟩ := Option.isSome_iff_exists.mp hsome
    have hpe := List.find?_some he
    simp only [decide_eq_true_eq] at hpe
    refine ⟨e, ?_, List.mem_of_find?_eq_some he, hpe⟩
    unfold findNearest
    rw [if_neg hne]
    exact findNearestLoop_finds_first hyp x y elems none r e he
  · intro hnc
    constructor
    · rintro ⟨e0, he0, hd0⟩
      have hne : elems.length ≠ 0 := by
        cases elems with
        | nil => simp at he0
        | cons a t => simp
      rcases findNearestLoop_min hyp x y elems none r hnc with
        ⟨heq, hall⟩ | ⟨e, heq, hmem, hlt, hmin⟩
      · exact absurd hd0 (not_lt.mpr (hall e0 he0))
      · refine ⟨e, ?_, hmem, hlt, hmin⟩
        unfold findNearest
        rw [if_neg hne]
        exact heq
    · intro hall
      by_cases hne : elems.length = 0
      · unfold findNearest
        rw [if_pos hne]
      · unfold findNearest
        rw [if_neg hne]
        rcases findNearestLoop_min hyp x y elems none r hnc with
          ⟨heq, _⟩ | ⟨e, _, hmem, hlt, _⟩
        · exact heq
        · exact absurd hlt (not_lt.mpr (hall e hmem))

theorem findNearest_spec_witness :
    ∃ e, findNearest (fun a b => a * a + b * b)
        [⟨2, 2, 2, 3, 2, 3, false, none⟩,
         ⟨5, 5, 0, 10, 0, 10, false, none⟩,
         ⟨6, 6, 0, 12, 0, 12, true, some 0⟩] 1 1 100 = some e ∧
      e ∈ [(⟨2, 2, 2, 3, 2, 3, false, none⟩ : ClickableElement),
           ⟨5, 5, 0, 10, 0, 10, false, none⟩,
           ⟨6, 6, 0, 12, 0, 12, true, some 0⟩] ∧
      containsPt e 1 1 :=
  (findNearest_spec (fun a b => a * a + b * b)
      [⟨2, 2, 2, 3, 2, 3, false, none⟩,
       ⟨5, 5, 0, 10, 0, 10, false, none⟩,
       ⟨6, 6, 0, 12, 0, 12, true, some 0⟩] 1 1 100).1
    ⟨⟨5, 5, 0, 10, 0, 10, false, none⟩, by decide, by decide⟩

lemma find?_append_first {α : Type} (p : α → Bool) (l1 l2 : List α) (a : α)
    (h : l1.find? p = some a) : (l1 ++ l2).find? p = some a := by
  induction l1 with
  | nil => simp at h
  | cons b t ih =>
    by_cases hb : p b = true
    · have h1 : List.find? p (b :: t) = some b := List.find?_cons_of_pos t hb
      rw [h1] at h
      cases h
      rw [List.cons_append]
      exact List.find?_cons_of_pos _ hb
    · have h1 : List.find? p (b :: t) = List.find? p t := List.find?_cons_of_neg t hb
      rw [h1] at h
      rw [List.cons_append]
      have h2 : List.find? p (b :: (t ++ l2)) = List.find? p (t ++ l2) :=
        List.find?_cons_of_neg _ hb
      rw [h2]
      exact ih h

/-- C10: after a successful refresh, host elements are stored before
embedded elements; when the query point lies inside both a host box and an
embedded box, `findNearest` returns the first containing element in stored
order, which is therefore a host element. -/
theorem refresh_findNearest_host_priority (hyp : ℚ → ℚ → ℚ)
    (prev : List ClickableElement) (localRects : List DomRect)
    (webviewRect : DomRect) (results : List WebviewRawResult) (x y r : ℚ)
    (S : List ClickableElement)
    (hS : refresh prev localRects true webviewRect (Except.ok results) =
      Except.ok (S, true))
    (hhost : ∃ d ∈ localRects, containsPt (localElem d) x y)
    (_hemb : ∃ w ∈ results, containsPt (webviewElem webviewRect w) x y) :
    ∃ e, findNearest hyp S x y r = some e ∧ e.isWebviewElement = false ∧
      containsPt e x y := by
  have hSeq : S = localRects.map localElem ++ results.map (webviewElem webviewRect) := by
    simp only [refresh, if_pos, Except.ok.injEq, Prod.mk.injEq] at hS
    exact hS.1.symm
  subst hSeq
  obtain ⟨d0, hd0, hcd0⟩ := hhost
  have hsome : ((localRects.map localElem).find?
      (fun el => decide (containsPt el x y))).isSome := by
    rw [List.find?_isSome]
    exact ⟨localElem d0, List.mem_map_of_mem localElem hd0, decide_eq_true hcd0⟩
  obtain ⟨e, he⟩ := Option.isSome_iff_exists.mp hsome
  have hmeme := List.mem_of_find?_eq_some he
  have hpe := List.find?_some he
  simp only [decide_eq_true_eq] at hpe
  have hne : (localRects.map localElem ++
      results.map (webviewElem webviewRect)).length ≠ 0 := by
    have hmm : localElem d0 ∈ localRects.map localElem ++
        results.map (webviewElem webviewRect) :=
      List.mem_append_left _ (List.mem_map_of_mem localElem hd0)
    intro h0
    rw [List.length_eq_zero.mp h0] at hmm
    simp at hmm
  obtain ⟨d1, _, rfl⟩ := List.mem_map.mp hmeme
  refine ⟨localElem d1, ?_, rfl, hpe⟩
  unfold findNearest
  rw [if_neg hne]
  exact findNearestLoop_finds_first hyp x y _ none r _
    (find?_append_first _ _ _ _ he)

theorem refresh_findNearest_host_priority_witness :
    ∃ e, findNearest (fun a b => a * a + b * b)
        ([(⟨0, 10, 0, 10⟩ : DomRect)].map localElem ++
          [(⟨0, 0, 10, 10, 0⟩ : WebviewRawResult)].map (webviewElem ⟨0, 200, 0, 200⟩))
        5 5 100 = some e ∧ e.isWebviewElement = false ∧ containsPt e 5 5 :=
  refresh_findNearest_host_priority (fun a b => a * a + b * b) []
    [⟨0, 10, 0, 10⟩] ⟨0, 200, 0, 200⟩ [⟨0, 0, 10, 10, 0⟩] 5 5 100
    ([(⟨0, 10, 0, 10⟩ : DomRect)].map localElem ++
      [(⟨0, 0, 10, 10, 0⟩ : WebviewRawResult)].map (webviewElem ⟨0, 200, 0, 200⟩))
    rfl (by decide)
    ⟨⟨0, 0, 10, 10, 0⟩, List.mem_singleton.mpr rfl,
      by simp [webviewElem, containsPt] <;> decide⟩

/-- C9: on the 30-key, 10-column letters layout, `navigate('right')` from
index 9 (last column of row 0) wraps to index 0; in general `navigate` moves
by one row or column with wraparound on both axes (the `specWrapTarget`
reading of the spec) and clamps the result to the last key when it would
overflow a short last row, so the new selection always stays in range. -/
theorem oskNavigate_spec :
    oskNavigate lettersLayout 9 OSKDir.right = 0 ∧
    lettersLayout.length = 30 ∧
    ∀ (keys : List Char) (i : ℕ) (d : OSKDir), 0 < keys.length → i < keys.length →
      (oskNavigate keys i d < keys.length ∧
        oskNavigate keys i d = min (specWrapTarget keys i d) (keys.length - 1)) := by
  refine ⟨by decide, by decide, ?_⟩
  intro keys i d hpos hi
  cases d <;>
    (simp only [oskNavigate, specWrapTarget, OSK_COLS, min_def]
     split_ifs <;> omega)

theorem oskNavigate_spec_witness :
    0 < numbersLayout.length ∧ 29 < numbersLayout.length ∧
    oskNavigate numbersLayout 29 OSKDir.down < numbersLayout.length :=
  ⟨by decide, by decide,
   (oskNavigate_spec.2.2 numbersLayout 29 OSKDir.down (by decide) (by decide)).1⟩

lemma length_filter_filter_le {α : Type} (p q : α → Bool) (l : List α) :
    ((l.filter q).filter p).length ≤ (l.filter p).length := by
  induction l with
  | nil => simp
  | cons a t ih =>
    by_cases hq : q a = true
    · rw [List.filter_cons_of_pos hq]
      by_cases hp : p a = true
      · rw [List.filter_cons_of_pos hp, List.filter_cons_of_pos hp]
        simpa using ih
      · rw [List.filter_cons_of_neg hp, List.filter_cons_of_neg hp]
        exact ih
    · rw [List.filter_cons_of_neg hq]
      by_cases hp : p a = true
      · rw [List.filter_cons_of_pos hp]
        exact le_trans ih (by simp)
      · rw [List.filter_cons_of_neg hp]
        exact ih

lemma mem_of_mem_clearById {tid : Option ℕ} {l : List RepeatTimer}
    {t : RepeatTimer} (h : t ∈ clearById tid l) : t ∈ l := by
  cases tid with
  | none => exact h
  | some i => exact (List.mem_filter.mp h).1

lemma mem_clearById_ne {i : ℕ} {l : List RepeatTimer} {t : RepeatTimer}
    (h : t ∈ clearById (some i) l) : t.id ≠ i := by
  have h2 := (List.mem_filter.mp h).2
  simpa using h2

lemma length_filter_clearById_le (p : RepeatTimer → Bool) (tid : Option ℕ)
    (l : List RepeatTimer) :
    ((clearById tid l).filter p).length ≤ (l.filter p).length := by
  cases tid with
  | none => exact le_refl _
  | some i => exact length_filter_filter_le p (fun t => t.id != i) l

/-- The inductive invariant for the repeat handler: every live delay
(interval) timer is the one referenced by its button's stored delay
(interval) handle, no button has both a live delay and a live interval, a
button with no stored delay handle has no stored interval handle, and every
button has at most one live delay and at most one live interval. -/
def WorldInv (w : TimerWorld) : Prop :=
  (∀ t ∈ w.live, t.isInterval = false → w.delayKey t.button = some t.id) ∧
  (∀ t ∈ w.live, t.isInterval = true → w.intervalKey t.button = some t.id) ∧
  (∀ t ∈ w.live, t.isInterval = false →
    ∀ u ∈ w.live, u.button = t.button → u.isInterval = false) ∧
  (∀ b, w.delayKey b = none → w.intervalKey b = none) ∧
  (∀ b, delayCount w b ≤ 1 ∧ intervalCount w b ≤ 1)

lemma inv_init : WorldInv initWorld := by
  refine ⟨?_, ?_, ?_, ?_, ?_⟩ <;>
    simp [initWorld, delayCount, intervalCount]

lemma inv_clearRepeat (b : ℕ) (w : TimerWorld) (hw : WorldInv w) :
    WorldInv (clearRepeatW b w) := by
  obtain ⟨I5, I6, I7, I8, IC⟩ := hw
  refine ⟨?_, ?_, ?_, ?_, ?_⟩
  · intro t ht hdel
    simp only [clearRepeatW] at ht ⊢
    have htl : t ∈ w.live := mem_of_mem_clearById (mem_of_mem_clearById ht)
    have h5 := I5 t htl hdel
    by_cases hb : t.button = b
    · exfalso
      have hin : t ∈ clearById (w.delayKey b) w.live := mem_of_mem_clearById ht
      rw [← hb, h5] at hin
      exact mem_clearById_ne hin rfl
    · simp [updateKey, hb, h5]
  · intro t ht hint
    simp only [clearRepeatW] at ht ⊢
    have htl : t ∈ w.live := mem_of_mem_clearById (mem_of_mem_clearById ht)
    have h6 := I6 t htl hint
    by_cases hb : t.button = b
    · exfalso
      have h6b : w.intervalKey b = some t.id := by rw [← hb]; exact h6
      rw [h6b] at ht
      exact mem_clearById_ne ht rfl
    · simp [updateKey, hb, h6]
  · intro t ht hdel u hu hbu
    simp only [clearRepeatW] at ht hu
    exact I7 t (mem_of_mem_clearById (mem_of_mem_clearById ht)) hdel u
      (mem_of_mem_clearById (mem_of_mem_clearById hu)) hbu
  · intro b2 h
    simp only [clearRepeatW, updateKey] at h ⊢
    by_cases hb : b2 = b
    · simp [hb]
    · rw [if_neg hb] at h ⊢
      exact I8 b2 h
  · intro b2
    constructor
    · exact le_trans
        (le_trans (length_filter_clearById_le _ _ _) (length_filter_clearById_le _ _ _))
        (IC b2).1
    · exact le_trans
        (le_trans (length_filter_clearById_le _ _ _) (length_filter_clearById_le _ _ _))
        (IC b2).2

lemma inv_startPost (b : ℕ) (w1 : TimerWorld) (hw1 : WorldInv w1)
    (hnone : w1.delayKey b = none) : WorldInv (startRepeatPost b w1) := by
  obtain ⟨I5, I6, I7, I8, IC⟩ := hw1
  have hnob : ∀ t ∈ w1.live, t.button = b → False := by
    intro t ht hb
    by_cases hd : t.isInterval = false
    · have h5 := I5 t ht hd
      rw [hb, hnone] at h5
      exact Option.noConfusion h5
    · have h6 := I6 t ht (by simpa using hd)
      rw [hb, I8 b hnone] at h6
      exact Option.noConfusion h6
  refine ⟨?_, ?_, ?_, ?_, ?_⟩
  · intro t ht hdel
    simp only [startRepeatPost] at ht ⊢
    rcases List.mem_cons.mp ht with rfl | ht
    · simp [updateKey]
    · by_cases hb : t.button = b
      · exact (hnob t ht hb).elim
      · simp only [updateKey, if_neg hb]
        exact I5 t ht hdel
  · intro t ht hint
    simp only [startRepeatPost] at ht ⊢
    rcases List.mem_cons.mp ht with rfl | ht
    · simp at hint
    · exact I6 t ht hint
  · intro t ht hdel u hu hbu
    simp only [startRepeatPost] at ht hu
    rcases List.mem_cons.mp hu with rfl | hu
    · rfl
    · rcases List.mem_cons.mp ht with rfl | ht
      · exact absurd (hnob u hu (by simpa using hbu)) id
      · exact I7 t ht hdel u hu hbu
  · intro b2 h
    simp only [startRepeatPost, updateKey] at h ⊢
    by_cases hb : b2 = b
    · rw [if_pos hb] at h
      exact Option.noConfusion h
    · rw [if_neg hb] at h
      exact I8 b2 h
  · intro b2
    by_cases hb : b2 = b
    · subst hb
      constructor
      · simp [delayCount, startRepeatPost, List.filter_cons]
        intro a ha hab
        exact (hnob a ha hab).elim
      · have heq : intervalCount (startRepeatPost b2 w1) b2 = intervalCount w1 b2 := by
          simp [intervalCount, startRepeatPost, List.filter_cons]
        rw [heq]
        exact (IC b2).2
    · have hne : (b == b2) = false := by
        simp
        exact fun hcon => hb hcon.symm
      constructor
      · have : delayCount (startRepeatPost b w1) b2 = delayCount w1 b2 := by
          simp [delayCount, startRepeatPost, List.filter_cons, hne]
        rw [this]
        exact (IC b2).1
      · have : intervalCount (startRepeatPost b w1) b2 = intervalCount w1 b2 := by
          simp [intervalCount, startRepeatPost, List.filter_cons, hne]
        rw [this]
        exact (IC b2).2

lemma inv_start (b : ℕ) (w : TimerWorld) (hw : WorldInv w) :
    WorldInv (startRepeatW b w) := by
  unfold startRepeatW
  split_ifs with hg
  · refine inv_startPost b _ (inv_clearRepeat b w hw) ?_
    simp [clearRepeatW, updateKey]
  · exact inv_startPost b w hw (Option.not_isSome_iff_eq_none.mp hg)

lemma inv_delayElapsed (b i : ℕ) (w : TimerWorld) (hw : WorldInv w)
    (hd : w.delayKey b = some i) (hm : RepeatTimer.mk i b false ∈ w.live) :
    WorldInv (delayElapsedW b w) := by
  obtain ⟨I5, I6, I7, I8, IC⟩ := hw
  have hB : ∀ u ∈ w.live, u.button = b → u.isInterval = false := by
    intro u hu hub
    exact I7 (RepeatTimer.mk i b false) hm rfl u hu hub
  have hred : delayElapsedW b w =
      { nextId := w.nextId + 1
        live := RepeatTimer.mk w.nextId b true :: w.live.filter (fun t => t.id != i)
        delayKey := w.delayKey
        intervalKey := updateKey w.intervalKey b (some w.nextId) } := by
    unfold delayElapsedW
    rw [hd]
  rw [hred]
  refine ⟨?_, ?_, ?_, ?_, ?_⟩
  · intro t ht hdel
    rcases List.mem_cons.mp ht with rfl | ht
    · exact Bool.noConfusion hdel
    · exact I5 t (List.mem_filter.mp ht).1 hdel
  · intro t ht hint
    rcases List.mem_cons.mp ht with rfl | ht
    · simp [updateKey]
    · have htl := (List.mem_filter.mp ht).1
      by_cases hb : t.button = b
      · have hfalse := hB t htl hb
        rw [hint] at hfalse
        exact Bool.noConfusion hfalse
      · simp only [updateKey, if_neg hb]
        exact I6 t htl hint
  · intro t ht hdel u hu hbu
    rcases List.mem_cons.mp ht with rfl | ht
    · exact Bool.noConfusion hdel
    · have htl := (List.mem_filter.mp ht).1
      have htne : t.id ≠ i := by simpa using (List.mem_filter.mp ht).2
      have htb : t.button ≠ b := by
        intro hbt
        have h5 := I5 t htl hdel
        rw [hbt, hd] at h5
        exact htne (Option.some.inj h5).symm
      rcases List.mem_cons.mp hu with rfl | hu
      · exact (htb hbu.symm).elim
      · exact I7 t htl hdel u (List.mem_filter.mp hu).1 hbu
  · intro b2 h
    by_cases hb : b2 = b
    · subst hb
      rw [h] at hd
      exact Option.noConfusion hd
    · simp only [updateKey, if_neg hb]
      exact I8 b2 h
  · intro b2
    by_cases hb : b2 = b
    · subst hb
      constructor
      · have hzero : List.filter (fun t => t.button == b2 && t.isInterval == false)
            (w.live.filter (fun t => t.id != i)) = [] := by
          rw [List.filter_eq_nil_iff]
          intro a ha hcon
          simp only [Bool.and_eq_true, beq_iff_eq] at hcon
          have hal := (List.mem_filter.mp ha).1
          have hane : a.id ≠ i := by simpa using (List.mem_filter.mp ha).2
          have h5 := I5 a hal hcon.2
          rw [hcon.1, hd] at h5
          exact (hane (Option.some.inj h5).symm).elim
        show (List.filter (fun t => t.button == b2 && t.isInterval == false)
            (RepeatTimer.mk w.nextId b2 true ::
              w.live.filter (fun t => t.id != i))).length ≤ 1
        rw [List.filter_cons_of_neg (by simp), hzero]
        simp
      · have hzero : List.filter (fun t => t.button == b2 && t.isInterval == true)
            (w.live.filter (fun t => t.id != i)) = [] := by
          rw [List.filter_eq_nil_iff]
          intro a ha hcon
          simp only [Bool.and_eq_true, beq_iff_eq] at hcon
          have hal := (List.mem_filter.mp ha).1
          have hfalse := hB a hal hcon.1
          rw [hcon.2] at hfalse
          exact Bool.noConfusion hfalse
        show (List.filter (fun t => t.button == b2 && t.isInterval == true)
            (RepeatTimer.mk w.nextId b2 true ::
              w.live.filter (fun t => t.id != i))).length ≤ 1
        rw [List.filter_cons_of_pos (by simp), hzero]
        simp
    · have hne : (b == b2) = false := by
        simp
        exact fun hcon => hb hcon.symm
      constructor
      · have heq : delayCount
            { nextId := w.nextId + 1
              live := RepeatTimer.mk w.nextId b true ::
                w.live.filter (fun t => t.id != i)
              delayKey := w.delayKey
              intervalKey := updateKey w.intervalKey b (some w.nextId) } b2 =
            (List.filter (fun t => t.button == b2 && t.isInterval == false)
              (w.live.filter (fun t => t.id != i))).length := by
          simp [delayCount, List.filter_cons, hne]
        rw [heq]
        exact le_trans (length_filter_filter_le _ _ _) (IC b2).1
      · have heq : intervalCount
            { nextId := w.nextId + 1
              live := RepeatTimer.mk w.nextId b true ::
                w.live.filter (fun t => t.id != i)
              delayKey := w.delayKey
              intervalKey := updateKey w.intervalKey b (some w.nextId) } b2 =
            (List.filter (fun t => t.button == b2 && t.isInterval == true)
              (w.live.filter (fun t => t.id != i))).length := by
          simp [intervalCount, List.filter_cons, hne]
        rw [heq]
        exact le_trans (length_filter_filter_le _ _ _) (IC b2).2

lemma inv_clearAll (w : TimerWorld) (hw : WorldInv w) : WorldInv (clearAllW w) := by
  obtain ⟨I5, I6, I7, I8, IC⟩ := hw
  have hsurv : ∀ t ∈ (clearAllW w).live, False := by
    intro t ht
    have htl := (List.mem_filter.mp ht).1
    have hcond := (List.mem_filter.mp ht).2
    simp only [Bool.not_eq_true', Bool.or_eq_false_iff, beq_eq_false_iff_ne] at hcond
    rcases Bool.eq_false_or_eq_true t.isInterval with h1 | h2
    · exact hcond.2 (I6 t htl h1)
    · exact hcond.1 (I5 t htl h2)
  refine ⟨?_, ?_, ?_, ?_, ?_⟩
  · intro t ht _
    exact (hsurv t ht).elim
  · intro t ht _
    exact (hsurv t ht).elim
  · intro t ht _
    exact (hsurv t ht).elim
  · intro b2 _
    rfl
  · intro b2
    constructor
    · exact le_trans (length_filter_filter_le _ _ _) (IC b2).1
    · exact le_trans (length_filter_filter_le _ _ _) (IC b2).2

lemma reach_inv {w : TimerWorld} (h : ReachW w) : WorldInv w := by
  induction h with
  | init => exact inv_init
  | start b hw ih => exact inv_start b _ ih
  | clear b hw ih => exact inv_clearRepeat b _ ih
  | elapse b i hw hd hm ih => exact inv_delayElapsed b i _ ih hd hm
  | wipe hw ih => exact inv_clearAll _ ih

/-- C6: in every state reachable through the handler's interface and the
timer runtime, each button has at most one live delay timeout and at most
one live repeat interval; in particular, calling `startRepeat` twice on the
same button without an intervening clear leaves exactly one pending delay
timer and zero intervals for that button — one active pair, not two. -/
theorem repeat_timer_pair_unique (w : TimerWorld) (hw : ReachW w) :
    (∀ b, delayCount w b ≤ 1 ∧ intervalCount w b ≤ 1) ∧
    (delayCount (startRepeatW 1 (startRepeatW 1 initWorld)) 1 = 1 ∧
      intervalCount (startRepeatW 1 (startRepeatW 1 initWorld)) 1 = 0) :=
  ⟨(reach_inv hw).2.2.2.2, by decide, by decide⟩

theorem repeat_timer_pair_unique_witness :
    delayCount (startRepeatW 1 (startRepeatW 1 initWorld)) 1 ≤ 1 ∧
    intervalCount (startRepeatW 1 (startRepeatW 1 initWorld)) 1 ≤ 1 :=
  (repeat_timer_pair_unique _ (ReachW.start 1 (ReachW.start 1 ReachW.init))).1 1

end GameWikiOverlay
